import Mathlib

/-!
Verification development for the two diagnostic scripts of this repository:
`esmvaltool/diag_scripts/primavera/jet_latitude.py` (jet-latitude pipeline) and
`esmvaltool/diag_scripts/hydrology/derive_evspsblpot.py` (De Bruin PET).

The numeric pipeline is shallowly embedded: cube data arrays become Lean lists
(rationals for the pipeline operations, reals where `exp` is involved), the
numpy/scipy library calls used by the scripts (`np.convolve`, `np.argmax`,
`np.fft.rfft`/`irfft`, `np.histogram` normalisation, `scipy.stats.gaussian_kde`)
are modelled from their documented semantics, and iris's in-place operations
(`cube.convert_units`, writes through the alias returned by `cube.data`) are
modelled by explicit state passing.
-/

set_option maxHeartbeats 1000000

namespace ESMVal

/-! ### numpy argmax (jet_latitude.py, lines 49-52)

`np.argmax` returns the index of the first occurrence of the maximum value.
The script applies it along the latitude axis of the filtered wind field, so we
model one latitude profile (the values at a fixed remaining grid point) as a
list of rationals. -/

def argmaxAux (best : ℚ) (bestIdx : ℕ) (i : ℕ) : List ℚ → ℕ
  | [] => bestIdx
  | x :: xs => if best < x then argmaxAux x i (i + 1) xs else argmaxAux best bestIdx (i + 1) xs

def npArgmax : List ℚ → ℕ
  | [] => 0
  | x :: xs => argmaxAux x 0 1 xs

/-- `jet_latitude.py` line 49-59: the value the script stores as the jet
latitude of one profile is the bare `np.argmax` array index, cast into a cube
whose metadata says latitude / degrees_north. -/
def codeJetLatitude (profile : List ℚ) : ℚ := (npArgmax profile : ℚ)

/-- Modelled from the spec: the physical latitude coordinate value at which the
maximum over latitude occurs (`coordinate_of_argmax`), to be compared with
`codeJetLatitude`. -/
def specJetLatitude (lats profile : List ℚ) : ℚ := lats.getD (npArgmax profile) 0

/-! ### numpy convolve (jet_latitude.py, lines 41-46)

`np.convolve(m, w, mode='same')` computes the full discrete convolution, of
length `M + N - 1`, and returns the centred slice of length `max M N` starting
at index `(min M N - 1) / 2`.  The script applies it along the time axis of
every grid point via `np.apply_along_axis`. -/

def npConvolveFull (a v : List ℚ) : List ℚ :=
  (List.range (a.length + v.length - 1)).map fun n =>
    ∑ m ∈ Finset.range a.length,
      if m ≤ n ∧ n - m < v.length then a.getD m 0 * v.getD (n - m) 0 else 0

def npConvolveSame (a v : List ℚ) : List ℚ :=
  ((npConvolveFull a v).drop ((min a.length v.length - 1) / 2)).take (max a.length v.length)

/-- `jet_latitude.py` lines 41-45: `np.apply_along_axis(lambda m: np.convolve(m,
lanczos_weight, mode='same'), axis=time, arr=ua.core_data())` — the same 1-D
convolution at every non-time grid index.  The grid is a list of per-point time
series. -/
def temporalFilter (grid : List (List ℚ)) (w : List ℚ) : List (List ℚ) :=
  grid.map fun ts => npConvolveSame ts w

/-! ### Day-of-year anomaly composition (jet_latitude.py, lines 79-84)

```
anom = data.data
day_year = data.coord('day_of_year').points
for day_slice in clim.slices_over('day_of_year'):
    num_day = day_slice.coord('day_of_year').points[0]
    anom[day_year == num_day] = anom[day_year == num_day] - day_slice.data
anom = data.copy(anom)
```

A series sample is a pair `(day_of_year point, value)`; the loop over the
climatology's day slices does a masked subtraction on the whole working array
for each slice.  `anom = data.data` is an alias of the input cube's buffer: the
masked assignments write through it, so after the loop the input cube holds the
subtracted values as well. -/

def subtractClim (data clim : List (ℕ × ℚ)) : List (ℕ × ℚ) :=
  clim.foldl
    (fun acc e => acc.map fun dv => if dv.1 = e.1 then (dv.1, dv.2 - e.2) else dv) data

/-- Re-adding the climatology with the same keyed masks (the inverse join used
to state the round-trip property). -/
def addClim (data clim : List (ℕ × ℚ)) : List (ℕ × ℚ) :=
  clim.foldl
    (fun acc e => acc.map fun dv => if dv.1 = e.1 then (dv.1, dv.2 + e.2) else dv) data

/-- Total climatology mass subtracted from a sample with key `k`: the sum of
the climatology values whose day key equals `k` (the unique matching value when
the climatology keys are distinct). -/
def climSum (clim : List (ℕ × ℚ)) (k : ℕ) : ℚ :=
  ((clim.filter fun c => c.1 == k).map Prod.snd).sum

/-- The anomaly computation with the aliasing made explicit: the first
component is the fresh cube built by `data.copy(anom)`, the second is the state
of the input cube's data array after the call (mutated through the
`anom = data.data` alias). -/
def anomalyComposeState (data clim : List (ℕ × ℚ)) :
    List (ℕ × ℚ) × List (ℕ × ℚ) :=
  (subtractClim data clim, subtractClim data clim)

/-! ### Seasonal residual step (jet_latitude.py, lines 91-103)

```
season_clim = clim.aggregated_by('season', iris.analysis.MEAN)
current_season = anom.coord('day_of_year').points
for season_slice in season_clim.slices_over('season'):
    anom_slice = season_clim.extract(iris.Constraint(season=season_slice.coord('season').points[0]))
    season = season_slice.coord('season').points[0]
    anom_slice.data[current_season == season] = anom_slice.data[current_season == season] - season_slice.data
    hist, bin_edges = np.histogram(season_slice, ...)
    kde = stats.gaussian_kde(season_slice.data)
```

`current_season` holds the integer `day_of_year` points; `season` is a season
label string, so the numpy elementwise comparison `current_season == season`
compares an integer with a string and is false everywhere.  `anom_slice` is
extracted from `season_clim` (the 4-element seasonal climatology), not from the
anomaly cube, and the array handed to the histogram and the KDE is
`season_slice` — the single seasonal-climatology value. -/

/-- A coordinate point as numpy sees it: either an integer (`day_of_year`) or a
label string (`season`). -/
inductive Pt where
  | num (n : ℕ)
  | lab (s : String)
deriving DecidableEq, BEq

/-- `season_clim.extract(iris.Constraint(season=s))`: the data of the seasonal
climatology restricted to season `s`. -/
def extractSeason (seasonClim : List (String × ℚ)) (s : String) : List ℚ :=
  ((seasonClim.filter fun p => p.1 == s).map Prod.snd)

/-- The numpy mask `current_season == season`: elementwise comparison of the
integer `day_of_year` points with the season label. -/
def seasonMask (dayYear : List ℕ) (s : String) : List Bool :=
  dayYear.map fun d => Pt.num d == Pt.lab s

/-- `arr[mask] = arr[mask] - c`: subtract `c` at the positions selected by the
mask. -/
def maskedSub (arr : List ℚ) (mask : List Bool) (c : ℚ) : List ℚ :=
  arr.mapIdx fun i a => if mask.getD i false then a - c else a

/-- The sample vector the script passes to `np.histogram` and
`stats.gaussian_kde` for season `s`: `season_slice`'s data after the masked
subtraction above ran on `anom_slice` (both extracted from `season_clim`). -/
def codeDensityInput (seasonClim : List (String × ℚ)) (dayYear : List ℕ)
    (s : String) : List ℚ :=
  maskedSub (extractSeason seasonClim s) (seasonMask dayYear s)
    ((extractSeason seasonClim s).getD 0 0)

/-- Modelled from the spec: the season-referenced residuals — the anomaly
samples of season `s` minus that season's climatology value — which §4.4/§4.5
say are the DensityEstimator's input. `anom` pairs each sample with its season
label. -/
def specDensityInput (anom : List (String × ℚ)) (s : String) (climVal : ℚ) :
    List ℚ :=
  ((anom.filter fun p => p.1 == s).map fun p => p.2 - climVal)

/-! ### Histogram binning and plotted normalisation (jet_latitude.py, lines 98 and 111-116)

Bin edges: `np.arange(latitude.min(), latitude.max(), 2.5) - 1.25`.
Plotted bar heights: `histogram / 2.5 * histogram.sum()` (Python precedence:
`(histogram / 2.5) * histogram.sum()`), labelled "Relative Frequency Density"
with y-limits `[0, 0.1]`. -/

/-- `np.arange start stop step` for a positive rational step: `start`,
`start + step`, ... strictly below `stop`. -/
def npArange (start stop step : ℚ) : List ℚ :=
  (List.range (max ((stop - start) / step).ceil 0).toNat).map
    fun (i : ℕ) => start + (i : ℚ) * step

/-- The bin edges the script builds on line 98. -/
def histEdges (latMin latMax : ℚ) : List ℚ :=
  (npArange latMin latMax (5/2)).map fun e => e - 5/4

/-- Line 113: the per-bin values actually plotted as the density,
`histogram / 2.5 * histogram.sum()`. -/
def plottedDensity (hist : List ℚ) : List ℚ :=
  hist.map fun h => h / (5/2) * hist.sum

/-- Modelled from the spec (§4.5): relative-frequency density — counts divided
by bin width times total count. -/
def specDensity (hist : List ℚ) : List ℚ :=
  hist.map fun h => h / ((5/2) * hist.sum)

/-! ### Gaussian KDE construction (jet_latitude.py, lines 99-103)

`scipy.stats.gaussian_kde(dataset)` begins with
`if not self.dataset.size > 1: raise ValueError(...)` — with fewer than two
samples it raises before any estimator state is built; with two or more it
constructs the estimator.  The spec's error taxonomy (§7) calls this failure
`InsufficientDataError`. -/

inductive KdeError where
  | insufficientData
deriving DecidableEq

structure GaussianKde where
  dataset : List ℚ
  n : ℕ
deriving DecidableEq

def gaussian_kde (dataset : List ℚ) : Except KdeError GaussianKde :=
  if 1 < dataset.length then .ok ⟨dataset, dataset.length⟩
  else .error .insufficientData

/-! ### Harmonic smoothing (jet_latitude.py, lines 74-77)

```
clim_fft = np.fft.rfft(clim.data)
clim_fft[3:np.size(clim_fft)] = 0
clim_fft = np.fft.irfft(clim_fft)
clim = clim.copy(clim_fft)
```

`np.fft.rfft` of a length-`n` real input returns the `n / 2 + 1` nonnegative-
frequency DFT coefficients; `np.fft.irfft` of `m` coefficients *without an
explicit output length* returns `2 * (m - 1)` real samples (it assumes an
even-length origin).  `clim.copy(clim_fft)` requires the array to match the
cube's shape. -/

noncomputable def npRfft (x : List ℝ) : List ℂ :=
  (List.range (x.length / 2 + 1)).map fun (k : ℕ) =>
    ∑ j ∈ Finset.range x.length,
      (x.getD j 0 : ℂ) *
        Complex.exp (-2 * Real.pi * Complex.I * ((j : ℂ) * (k : ℂ)) / (x.length : ℂ))

/-- `clim_fft[3:] = 0`: zero every coefficient from index `k` on. -/
def zeroFrom (k : ℕ) (X : List ℂ) : List ℂ :=
  X.mapIdx fun i c => if k ≤ i then 0 else c

/-- `np.fft.irfft` with its default output length `2 * (m - 1)`. -/
noncomputable def npIrfft (X : List ℂ) : List ℝ :=
  (List.range (2 * (X.length - 1))).map fun (j : ℕ) =>
    (((∑ k ∈ Finset.range X.length,
        X.getD k 0 *
          Complex.exp (2 * Real.pi * Complex.I * ((j : ℂ) * (k : ℂ)) / ((2 * (X.length - 1) : ℕ) : ℂ))) +
      (∑ k ∈ Finset.Ico 1 (X.length - 1),
        (starRingEnd ℂ) (X.getD k 0) *
          Complex.exp (-2 * Real.pi * Complex.I * ((j : ℂ) * (k : ℂ)) / ((2 * (X.length - 1) : ℕ) : ℂ)))) /
      ((2 * (X.length - 1) : ℕ) : ℂ)).re

/-- Lines 74-76 composed: rfft, zero the coefficients from index 3 on, irfft. -/
noncomputable def harmonicSmooth (x : List ℝ) : List ℝ :=
  npIrfft (zeroFrom 3 (npRfft x))

/-! ### De Bruin PET (derive_evspsblpot.py)

The pointwise real-number formula, with `tas` already in degC and `psl` in hPa
(lines 23 and 53 convert the cubes before the arithmetic; the in-place effect
of those conversions is modelled separately below).  Line 111's cast of the
result to `float32` changes each value by less than one part in 2^24 and is not
part of the real-valued formula model. -/

/-- `tetens_derivative` (lines 13-41): `a*b * (e0 * exp(a*T/(b+T)) / (b+T)^2)`
with `a = 17.67`, `b = 243.5` degC, `e0 = 6.112` hPa, written with the `tmp1`,
`tmp2` factoring of the source. -/
noncomputable def tetens_derivative (tas : ℝ) : ℝ :=
  let e0_const : ℝ := 6.112
  let emp_a : ℝ := 17.67
  let emp_b : ℝ := 243.5
  let exponent := Real.exp (emp_a * tas / (emp_b + tas))
  let tmp1 := emp_a * emp_b
  let tmp2 := e0_const * exponent / (emp_b + tas) ^ 2
  tmp1 * tmp2

/-- `get_constants` (line 89): `gamma = rv/rd * cp * psl / lambda` =
`461.51/287.0 * 1004 * psl / 2.5e6`. -/
noncomputable def gammaOf (psl : ℝ) : ℝ := 461.51 / 287.0 * 1004 * psl / 2.5e6

/-- `debruin_pet` (lines 93-115): `rad_term = (1-0.23)*rsds - 110*rsds/rsdt`,
`ref_evap = delta/(delta+gamma)*rad_term + 20`, `pet = ref_evap/2.5e6`. -/
noncomputable def debruin_pet (psl rsds rsdt tas : ℝ) : ℝ :=
  let delta_svp := tetens_derivative tas
  let gamma := gammaOf psl
  let rad_term := (1 - 0.23) * rsds - 110 * rsds / rsdt
  let ref_evap := delta_svp / (delta_svp + gamma) * rad_term + 20
  ref_evap / 2.5e6

/-- Modelled from the spec (§4.6 / C7's wording): `delta` as the Tetens
derivative with a=17.67, b=243.5, e0=6.112; `gamma = (461.51/287.0)*1004*psl/2.5e6`;
`rad_term = 0.77*rsds - 110*rsds/rsdt`; result `((delta/(delta+gamma))*rad_term + 20)/2.5e6`. -/
noncomputable def PET_spec (psl rsds rsdt tas : ℝ) : ℝ :=
  let delta := 17.67 * 243.5 * 6.112 * Real.exp (17.67 * tas / (tas + 243.5)) / (243.5 + tas) ^ 2
  let gamma := 461.51 / 287.0 * 1004 * psl / 2.5e6
  let rad_term := 0.77 * rsds - 110 * rsds / rsdt
  (delta / (delta + gamma) * rad_term + 20) / 2.5e6

/-! ### In-place unit conversion of the PET inputs (derive_evspsblpot.py, lines 23, 53)

iris's `cube.convert_units` converts the cube *in place*.  A cube is a unit tag
plus a data array; `debruin_pet` is modelled with explicit state passing: it
returns the result together with the final state of each argument cube. -/

inductive CUnit where
  | kelvin
  | degC
  | pascal
  | hPa
  | wm2
  | derived
deriving DecidableEq

structure Cube where
  units : CUnit
  data : List ℝ

/-- `cube.convert_units(target)` for the conversions the script performs
(K → degC, Pa → hPa, and the identity conversions); on units iris cannot
convert it raises — those cases are outside the theorems' hypotheses and the
model leaves the cube unchanged there. -/
noncomputable def convert_units (c : Cube) (target : CUnit) : Cube :=
  match c.units, target with
  | .kelvin, .degC => ⟨.degC, c.data.map fun v => v - 273.15⟩
  | .degC, .degC => ⟨.degC, c.data⟩
  | .pascal, .hPa => ⟨.hPa, c.data.map fun v => v / 100⟩
  | .hPa, .hPa => ⟨.hPa, c.data⟩
  | _, _ => c

/-- `tetens_derivative` on cubes: converts `tas` in place, returns the derived
cube and the mutated `tas`. -/
noncomputable def tetens_derivative_cube (tas : Cube) : Cube × Cube :=
  let tas' := convert_units tas .degC
  (⟨.derived, tas'.data.map tetens_derivative⟩, tas')

/-- `get_constants` on cubes: converts `psl` in place, returns the gamma cube
and the mutated `psl`. -/
noncomputable def get_constants_cube (psl : Cube) : Cube × Cube :=
  let psl' := convert_units psl .hPa
  (⟨.derived, psl'.data.map gammaOf⟩, psl')

/-- The five cubes visible after `debruin_pet(psl, rsds, rsdt, tas)` returns:
the result and the final states of the four argument cubes. -/
structure PetResult where
  pet : Cube
  psl : Cube
  rsds : Cube
  rsdt : Cube
  tas : Cube

/-- `debruin_pet` on cubes with the in-place unit conversions made explicit.
`rsds` and `rsdt` are only read. -/
noncomputable def debruin_pet_cube (psl rsds rsdt tas : Cube) : PetResult :=
  let dt := tetens_derivative_cube tas
  let gc := get_constants_cube psl
  let rad := List.zipWith (fun s t => (1 - 0.23) * s - 110 * s / t) rsds.data rsdt.data
  let petData := List.zipWith (fun dr dg => dr / (dr + dg)) dt.1.data gc.1.data
  let petData := List.zipWith (fun f r => (f * r + 20) / 2.5e6) petData rad
  ⟨⟨.derived, petData⟩, gc.2, rsds, rsdt, dt.2⟩

/-! ## Helper lemmas -/

theorem map_eq_self_iff {α : Type} (f : α → α) :
    ∀ l : List α, l.map f = l ↔ ∀ x ∈ l, f x = x := by
  intro l
  induction l with
  | nil => simp
  | cons a l ih =>
    simp only [List.map_cons, List.cons.injEq, List.mem_cons]
    constructor
    · rintro ⟨h1, h2⟩ x (rfl | hx)
      · exact h1
      · exact (ih.mp h2) x hx
    · intro h
      exact ⟨h a (Or.inl rfl), ih.mpr fun x hx => h x (Or.inr hx)⟩

theorem climSum_cons (e : ℕ × ℚ) (clim : List (ℕ × ℚ)) (k : ℕ) :
    climSum (e :: clim) k = (if e.1 = k then e.2 else 0) + climSum clim k := by
  by_cases h : e.1 = k <;>
    simp [climSum, List.filter_cons, h]

theorem climSum_eq_zero_of_not_mem (clim : List (ℕ × ℚ)) (k : ℕ)
    (h : k ∉ clim.map Prod.fst) : climSum clim k = 0 := by
  induction clim with
  | nil => simp [climSum]
  | cons e rest ih =>
    simp only [List.map_cons, List.mem_cons] at h
    push_neg at h
    rw [climSum_cons, if_neg (fun he => h.1 he.symm), ih h.2, add_zero]

theorem climSum_eq_of_nodup (clim : List (ℕ × ℚ)) (c : ℕ × ℚ)
    (hnodup : (clim.map Prod.fst).Nodup) (hc : c ∈ clim) :
    climSum clim c.1 = c.2 := by
  induction clim with
  | nil => simp at hc
  | cons e rest ih =>
    simp only [List.map_cons, List.nodup_cons] at hnodup
    rcases List.mem_cons.mp hc with rfl | hmem
    · rw [climSum_cons, if_pos rfl,
        climSum_eq_zero_of_not_mem rest c.1 hnodup.1, add_zero]
    · have hne : e.1 ≠ c.1 := by
        intro h
        exact hnodup.1 (h ▸ List.mem_map_of_mem Prod.fst hmem)
      rw [climSum_cons, if_neg hne, ih hnodup.2 hmem, zero_add]

theorem subtractClim_eq_map (data clim : List (ℕ × ℚ)) :
    subtractClim data clim =
      data.map fun dv => (dv.1, dv.2 - climSum clim dv.1) := by
  induction clim generalizing data with
  | nil =>
    simp only [subtractClim, List.foldl_nil]
    symm
    apply (map_eq_self_iff _ data).mpr
    intro x _
    simp [climSum]
  | cons e rest ih =>
    have step : subtractClim data (e :: rest) =
        subtractClim
          (data.map fun dv => if dv.1 = e.1 then (dv.1, dv.2 - e.2) else dv)
          rest := by
      simp [subtractClim, List.foldl_cons]
    rw [step, ih, List.map_map]
    apply List.map_congr_left
    intro dv _
    by_cases h : dv.1 = e.1
    · simp [Function.comp_apply, climSum_cons, h, sub_sub]
    · have h' : ¬ e.1 = dv.1 := fun he => h he.symm
      simp [Function.comp_apply, climSum_cons, h, h']

theorem addClim_eq_map (data clim : List (ℕ × ℚ)) :
    addClim data clim =
      data.map fun dv => (dv.1, dv.2 + climSum clim dv.1) := by
  induction clim generalizing data with
  | nil =>
    simp only [addClim, List.foldl_nil]
    symm
    apply (map_eq_self_iff _ data).mpr
    intro x _
    simp [climSum]
  | cons e rest ih =>
    have step : addClim data (e :: rest) =
        addClim
          (data.map fun dv => if dv.1 = e.1 then (dv.1, dv.2 + e.2) else dv)
          rest := by
      simp [addClim, List.foldl_cons]
    rw [step, ih, List.map_map]
    apply List.map_congr_left
    intro dv _
    by_cases h : dv.1 = e.1
    · simp [Function.comp_apply, climSum_cons, h, add_assoc]
    · have h' : ¬ e.1 = dv.1 := fun he => h he.symm
      simp [Function.comp_apply, climSum_cons, h, h']

/-! ## Claim theorems -/

/-- C1: `jet_latitude.py` stores the bare `np.argmax` array index (here `1`) as
the jet latitude, in a cube whose own metadata declares latitude /
degrees_north; the physical latitude coordinate of the peak (here `32.5`) is
what the claim — and the cube's metadata — require.  Evaluation at the failing
input: profile `[1, 9, 2]` on the latitude grid `[30, 40, 50]`. -/
theorem jet_latitude_stores_index_not_coordinate :
    codeJetLatitude [1, 9, 2] = 1 ∧
    specJetLatitude [30, 40, 50] [1, 9, 2] = 40 ∧
    codeJetLatitude [1, 9, 2] ≠ specJetLatitude [30, 40, 50] [1, 9, 2] := by
  refine ⟨?_, ?_, ?_⟩ <;> decide

/-- C2 counterexample: the anomaly composition is not pure — running it on the
series `[(day 1, 5)]` with climatology `[(day 1, 2)]` leaves the input cube's
array holding `[(1, 3)]`, not its original values `[(1, 5)]` (the loop writes
through the `anom = data.data` alias). -/
theorem anomaly_composition_not_pure_cex :
    (anomalyComposeState [(1, 5)] [(1, 2)]).2 = [(1, 3)] ∧
    (anomalyComposeState [(1, 5)] [(1, 2)]).2 ≠ ([(1, 5)] : List (ℕ × ℚ)) := by
  constructor <;> norm_num [anomalyComposeState, subtractClim]

/-- C2 amended: the anomaly composition mutates its input in place.  The fresh
cube it returns and the post-call state of the input cube's array both hold the
subtracted values, and whenever some sample's matching climatology mass is
nonzero the input's values have genuinely changed. -/
theorem anomaly_composition_mutates_input (data clim : List (ℕ × ℚ))
    (h : ∃ dv ∈ data, climSum clim dv.1 ≠ 0) :
    (anomalyComposeState data clim).1 = subtractClim data clim ∧
    (anomalyComposeState data clim).2 = subtractClim data clim ∧
    (anomalyComposeState data clim).2 ≠ data := by
  refine ⟨rfl, rfl, ?_⟩
  intro heq
  obtain ⟨dv, hdv, hS⟩ := h
  have hmap : (data.map fun dv => (dv.1, dv.2 - climSum clim dv.1)) = data := by
    rw [← subtractClim_eq_map]
    exact heq
  have hfix := (map_eq_self_iff _ data).mp hmap dv hdv
  have h2 := congrArg Prod.snd hfix
  simp only at h2
  exact hS (sub_eq_self.mp h2)

/-- C2 witness: the amended mutation theorem applied at the concrete input
`data = [(1, 5)]`, `clim = [(1, 2)]`. -/
theorem anomaly_composition_mutates_input_witness :
    (∃ dv ∈ ([(1, 5)] : List (ℕ × ℚ)), climSum [(1, 2)] dv.1 ≠ 0) ∧
    ((anomalyComposeState [(1, 5)] [(1, 2)]).1 = subtractClim [(1, 5)] [(1, 2)] ∧
      (anomalyComposeState [(1, 5)] [(1, 2)]).2 = subtractClim [(1, 5)] [(1, 2)] ∧
      (anomalyComposeState [(1, 5)] [(1, 2)]).2 ≠ ([(1, 5)] : List (ℕ × ℚ))) :=
  ⟨⟨(1, 5), by norm_num, by norm_num [climSum]⟩,
    anomaly_composition_mutates_input _ _ ⟨(1, 5), by norm_num, by norm_num [climSum]⟩⟩

/-- C4: the anomaly is a coordinate-keyed join — with distinct climatology day
keys covering every sample's day key, each sample has exactly its matching
climatology value subtracted (positionally: the output is the input mapped by
`value - matching climatology value`, handling many samples per day bucket),
and re-adding the same climatology keyed the same way reconstructs the input
exactly. -/
theorem anomaly_keyed_join_roundtrip (data clim : List (ℕ × ℚ))
    (hnodup : (clim.map Prod.fst).Nodup)
    (hcover : ∀ dv ∈ data, dv.1 ∈ clim.map Prod.fst) :
    (∀ dv ∈ data, ∃ c ∈ clim, c.1 = dv.1 ∧ climSum clim dv.1 = c.2) ∧
    subtractClim data clim =
      data.map (fun dv => (dv.1, dv.2 - climSum clim dv.1)) ∧
    addClim (subtractClim data clim) clim = data := by
  refine ⟨?_, subtractClim_eq_map data clim, ?_⟩
  · intro dv hdv
    obtain ⟨c, hc, hck⟩ := List.mem_map.mp (hcover dv hdv)
    refine ⟨c, hc, hck, ?_⟩
    rw [← hck]
    exact climSum_eq_of_nodup clim c hnodup hc
  · rw [subtractClim_eq_map, addClim_eq_map, List.map_map]
    apply (map_eq_self_iff _ data).mpr
    intro x _
    simp [Function.comp_apply]

/-- C4 witness: the keyed join and round trip at a concrete series with two
samples (different years) in the same day bucket: `data = [(1,10), (2,20),
(1,12)]`, `clim = [(1,3), (2,4)]`. -/
theorem anomaly_keyed_join_roundtrip_witness :
    (((([(1, 3), (2, 4)] : List (ℕ × ℚ)).map Prod.fst).Nodup ∧
      ∀ dv ∈ ([(1, 10), (2, 20), (1, 12)] : List (ℕ × ℚ)),
        dv.1 ∈ ([(1, 3), (2, 4)] : List (ℕ × ℚ)).map Prod.fst) ∧
    ((∀ dv ∈ ([(1, 10), (2, 20), (1, 12)] : List (ℕ × ℚ)),
        ∃ c ∈ ([(1, 3), (2, 4)] : List (ℕ × ℚ)),
          c.1 = dv.1 ∧ climSum [(1, 3), (2, 4)] dv.1 = c.2) ∧
      subtractClim [(1, 10), (2, 20), (1, 12)] [(1, 3), (2, 4)] =
        ([(1, 10), (2, 20), (1, 12)] : List (ℕ × ℚ)).map
          (fun dv => (dv.1, dv.2 - climSum [(1, 3), (2, 4)] dv.1)) ∧
      addClim (subtractClim [(1, 10), (2, 20), (1, 12)] [(1, 3), (2, 4)])
          [(1, 3), (2, 4)] =
        [(1, 10), (2, 20), (1, 12)])) :=
  ⟨⟨by decide, by decide⟩,
    anomaly_keyed_join_roundtrip _ _ (by decide) (by decide)⟩

/-- The length `harmonicSmooth` actually produces: `np.fft.rfft` yields
`n / 2 + 1` coefficients and `np.fft.irfft` without an explicit output length
yields `2 * (m - 1)` samples. -/
theorem harmonicSmooth_length (x : List ℝ) :
    (harmonicSmooth x).length = 2 * (x.length / 2 + 1 - 1) := by
  rw [harmonicSmooth, npIrfft, List.length_map, List.length_range, zeroFrom,
    List.length_mapIdx, npRfft, List.length_map, List.length_range]

/-- C3 counterexample: for a 365-day climatology the smoothed series has 364
samples, not 365 — `np.fft.irfft` without `n` reconstructs an even-length
signal, and the subsequent `clim.copy(clim_fft)` needs the input's shape. -/
theorem harmonicSmooth_365_shrinks_cex :
    (harmonicSmooth (List.replicate 365 (0 : ℝ))).length = 364 ∧
    (List.replicate 365 (0 : ℝ)).length = 365 ∧ (364 : ℕ) ≠ 365 := by
  refine ⟨?_, by rw [List.length_replicate], by decide⟩
  rw [harmonicSmooth_length, List.length_replicate]

/-- C3 amended: the smoothing (real DFT, zero the coefficients from index 3 on,
inverse real DFT) preserves the climatology's length exactly when that length
is even (the 366 case); for odd length (365) it returns one sample fewer. -/
theorem harmonicSmooth_preserves_even_length (x : List ℝ)
    (h : Even x.length) : (harmonicSmooth x).length = x.length := by
  rw [harmonicSmooth_length]
  obtain ⟨k, hk⟩ := h
  omega

/-- C3 witness: the amended length theorem at a concrete 366-day climatology. -/
theorem harmonicSmooth_preserves_even_length_witness :
    Even (List.replicate 366 (0 : ℝ)).length ∧
    (harmonicSmooth (List.replicate 366 (0 : ℝ))).length =
      (List.replicate 366 (0 : ℝ)).length :=
  ⟨by rw [List.length_replicate]; decide,
    harmonicSmooth_preserves_even_length _ (by rw [List.length_replicate]; decide)⟩

/-- Convolution with the length-1 kernel `[1]` reproduces the full input. -/
theorem npConvolveFull_one (a : List ℚ) : npConvolveFull a [1] = a := by
  apply List.ext_getElem
  · simp [npConvolveFull]
  · intro n h1 h2
    simp only [npConvolveFull, List.getElem_map, List.getElem_range]
    have hterm : ∀ m ∈ Finset.range a.length,
        (if m ≤ n ∧ n - m < ([1] : List ℚ).length
          then a.getD m 0 * ([1] : List ℚ).getD (n - m) 0 else 0) =
        if m = n then a.getD m 0 else 0 := by
      intro m _
      by_cases hmn : m = n
      · subst hmn
        simp
      · have hcond : ¬ (m ≤ n ∧ n - m < ([1] : List ℚ).length) := by
          simp only [List.length_cons, List.length_nil]
          omega
        rw [if_neg hcond, if_neg hmn]
    rw [Finset.sum_congr rfl hterm,
      Finset.sum_ite_eq' (Finset.range a.length) n fun m => a.getD m 0,
      if_pos (Finset.mem_range.mpr h2), List.getD_eq_getElem a 0 h2]

theorem npConvolveSame_one (a : List ℚ) : npConvolveSame a [1] = a := by
  rw [npConvolveSame, npConvolveFull_one]
  have hd : (min a.length ([1] : List ℚ).length - 1) / 2 = 0 := by
    simp only [List.length_cons, List.length_nil]
    omega
  rw [hd, List.drop_zero]
  apply List.take_of_length_le
  simp only [List.length_cons, List.length_nil]
  omega

/-- numpy's `mode='same'` output length equals the series length whenever the
kernel is no longer than the series. -/
theorem npConvolveSame_length (a v : List ℚ) (h1 : 1 ≤ v.length)
    (h2 : v.length ≤ a.length) : (npConvolveSame a v).length = a.length := by
  simp only [npConvolveSame, List.length_take, List.length_drop,
    npConvolveFull, List.length_map, List.length_range]
  omega

/-- C8: the temporal filter output has the input's shape (same number of grid
points, same time length at each) for every kernel that fits in the series, and
the length-1 kernel `[1.0]` is the identity transform. -/
theorem temporalFilter_shape_and_identity (grid : List (List ℚ)) (w : List ℚ)
    (h1 : 1 ≤ w.length) (h2 : ∀ ts ∈ grid, w.length ≤ ts.length) :
    (temporalFilter grid w).map List.length = grid.map List.length ∧
    temporalFilter grid [1] = grid := by
  constructor
  · rw [temporalFilter, List.map_map]
    apply List.map_congr_left
    intro ts hts
    exact npConvolveSame_length ts w h1 (h2 ts hts)
  · rw [temporalFilter]
    apply (map_eq_self_iff _ grid).mpr
    intro ts _
    exact npConvolveSame_one ts

/-- C8 witness: shape preservation and identity at the concrete grid
`[[1,2,3],[4,5,6]]` with the length-2 kernel `[1,1]`. -/
theorem temporalFilter_shape_and_identity_witness :
    ((1 ≤ ([1, 1] : List ℚ).length ∧
      ∀ ts ∈ ([[1, 2, 3], [4, 5, 6]] : List (List ℚ)),
        ([1, 1] : List ℚ).length ≤ ts.length) ∧
    ((temporalFilter [[1, 2, 3], [4, 5, 6]] [1, 1]).map List.length =
        ([[1, 2, 3], [4, 5, 6]] : List (List ℚ)).map List.length ∧
      temporalFilter [[1, 2, 3], [4, 5, 6]] [1] = [[1, 2, 3], [4, 5, 6]])) :=
  ⟨⟨by decide, by decide⟩,
    temporalFilter_shape_and_identity _ _ (by decide) (by decide)⟩

/-- C5: evaluation of the seasonal-residual step at a concrete input (seasonal
climatology value 10 for season "djf"; the anomaly's day_of_year points are
[1, 2, 32]; the season's anomaly samples are 3, 5, 7).  The numpy mask compares
the integer day_of_year points with the season label, so it selects nothing;
the working array is extracted from `season_clim`, not from the anomaly; and
the sample set handed to the histogram/KDE is the single unchanged
seasonal-climatology value `[10]`, not the residuals `[-7, -5, -3]` the claim
describes. -/
theorem seasonal_residuals_never_reach_estimator :
    seasonMask [1, 2, 32] "djf" = [false, false, false] ∧
    codeDensityInput [("djf", 10)] [1, 2, 32] "djf" = [10] ∧
    specDensityInput [("djf", 3), ("djf", 5), ("djf", 7)] "djf" 10 = [-7, -5, -3] ∧
    codeDensityInput [("djf", 10)] [1, 2, 32] "djf" ≠
      specDensityInput [("djf", 3), ("djf", 5), ("djf", 7)] "djf" 10 := by
  have hc : codeDensityInput [("djf", 10)] [1, 2, 32] "djf" = [10] := by decide
  have hs : specDensityInput [("djf", 3), ("djf", 5), ("djf", 7)] "djf" 10 =
      [-7, -5, -3] := by
    norm_num [specDensityInput]
  refine ⟨by decide, hc, hs, ?_⟩
  rw [hc, hs]
  decide

/-- C6: evaluation of the histogram at concrete inputs.  The bin edges are as
the claim says: width 2.5, anchored 1.25 below the minimum (here latitude
minimum 30 gives edges 28.75, 31.25, 33.75, 36.25).  But the plotted
"densities" are `hist / 2.5 * hist.sum()` — the counts are *multiplied* by the
total count — so for the counts `[2, 3]` the plotted values are `[4, 6]` and
their sum times the bin width is 25 = (2+3)², not 1; the intended
normalisation `hist / (2.5 * hist.sum())` does integrate to 1. -/
theorem histogram_normalization_code_eval :
    histEdges 30 40 = [115/4, 125/4, 135/4, 145/4] ∧
    (115 : ℚ)/4 = 30 - 5/4 ∧
    plottedDensity [2, 3] = [4, 6] ∧
    (plottedDensity [2, 3]).sum * (5/2) = 25 ∧
    specDensity [2, 3] = [4/25, 6/25] ∧
    (specDensity [2, 3]).sum * (5/2) = 1 ∧
    (25 : ℚ) ≠ 1 := by
  have h4 : (max ((40 - 30 : ℚ) / (5 / 2)).ceil 0).toNat = 4 := by
    norm_num [Rat.ceil]
    decide
  refine ⟨?_, by norm_num, ?_, ?_, ?_, ?_, by norm_num⟩
  · rw [histEdges, npArange, h4]
    norm_num [List.range_succ]
  all_goals norm_num [plottedDensity, specDensity]

/-- C9: `scipy.stats.gaussian_kde` rejects a dataset of fewer than 2 samples
up front (`InsufficientDataError` in the spec's taxonomy) and builds no partial
estimator; with 2 or more samples it constructs the estimator and does not
raise this error. -/
theorem gaussian_kde_insufficient_data (ds : List ℚ) :
    (ds.length < 2 → gaussian_kde ds = .error .insufficientData) ∧
    (2 ≤ ds.length → gaussian_kde ds = .ok ⟨ds, ds.length⟩) := by
  refine ⟨fun h => ?_, fun h => ?_⟩
  · simp only [gaussian_kde]
    rw [if_neg (by omega)]
  · simp only [gaussian_kde]
    rw [if_pos (by omega)]

/-- C9 witness: the error at the one-sample input `[3]` and the successful
construction at the two-sample input `[1, 2]`. -/
theorem gaussian_kde_insufficient_data_witness :
    (([(3 : ℚ)].length < 2 ∧ gaussian_kde [3] = .error .insufficientData) ∧
      (2 ≤ ([(1 : ℚ), 2]).length ∧ gaussian_kde [1, 2] = .ok ⟨[1, 2], 2⟩)) :=
  ⟨⟨by decide, (gaussian_kde_insufficient_data [3]).1 (by decide)⟩,
    ⟨by decide, (gaussian_kde_insufficient_data [1, 2]).2 (by decide)⟩⟩

/-- C10: calling the PET function converts the caller's `tas` cube to degC and
the caller's `psl` cube to hPa in place (for any convertible starting units),
while `rsds` and `rsdt` come back untouched. -/
theorem debruin_pet_mutates_tas_psl (psl rsds rsdt tas : Cube)
    (hp : psl.units = .pascal ∨ psl.units = .hPa)
    (ht : tas.units = .kelvin ∨ tas.units = .degC) :
    (debruin_pet_cube psl rsds rsdt tas).tas = convert_units tas .degC ∧
    (debruin_pet_cube psl rsds rsdt tas).tas.units = .degC ∧
    (debruin_pet_cube psl rsds rsdt tas).psl = convert_units psl .hPa ∧
    (debruin_pet_cube psl rsds rsdt tas).psl.units = .hPa ∧
    (debruin_pet_cube psl rsds rsdt tas).rsds = rsds ∧
    (debruin_pet_cube psl rsds rsdt tas).rsdt = rsdt := by
  obtain ⟨tu, td⟩ := tas
  obtain ⟨pu, pd⟩ := psl
  refine ⟨rfl, ?_, rfl, ?_, rfl, rfl⟩
  · rcases ht with h | h <;> (simp only at h; subst h; rfl)
  · rcases hp with h | h <;> (simp only at h; subst h; rfl)

/-- C10 witness: the in-place conversions at a concrete call (`psl` in Pa,
`tas` in K, the radiation cubes in W m⁻²). -/
theorem debruin_pet_mutates_tas_psl_witness :
    ((Cube.mk .pascal [101325]).units = .pascal ∨
        (Cube.mk .pascal [101325]).units = .hPa) ∧
    ((Cube.mk .kelvin [293.15]).units = .kelvin ∨
        (Cube.mk .kelvin [293.15]).units = .degC) ∧
    ((debruin_pet_cube ⟨.pascal, [101325]⟩ ⟨.wm2, [200]⟩ ⟨.wm2, [400]⟩
          ⟨.kelvin, [293.15]⟩).tas =
        convert_units ⟨.kelvin, [293.15]⟩ .degC ∧
      (debruin_pet_cube ⟨.pascal, [101325]⟩ ⟨.wm2, [200]⟩ ⟨.wm2, [400]⟩
          ⟨.kelvin, [293.15]⟩).tas.units = .degC ∧
      (debruin_pet_cube ⟨.pascal, [101325]⟩ ⟨.wm2, [200]⟩ ⟨.wm2, [400]⟩
          ⟨.kelvin, [293.15]⟩).psl =
        convert_units ⟨.pascal, [101325]⟩ .hPa ∧
      (debruin_pet_cube ⟨.pascal, [101325]⟩ ⟨.wm2, [200]⟩ ⟨.wm2, [400]⟩
          ⟨.kelvin, [293.15]⟩).psl.units = .hPa ∧
      (debruin_pet_cube ⟨.pascal, [101325]⟩ ⟨.wm2, [200]⟩ ⟨.wm2, [400]⟩
          ⟨.kelvin, [293.15]⟩).rsds = ⟨.wm2, [200]⟩ ∧
      (debruin_pet_cube ⟨.pascal, [101325]⟩ ⟨.wm2, [200]⟩ ⟨.wm2, [400]⟩
          ⟨.kelvin, [293.15]⟩).rsdt = ⟨.wm2, [400]⟩) :=
  ⟨Or.inl rfl, Or.inl rfl,
    debruin_pet_mutates_tas_psl _ _ _ _ (Or.inl rfl) (Or.inl rfl)⟩

/-! ### Numeric facts for the PET reference evaluation

At the reference input tas = 20 degC the Tetens exponent is
`17.67 * 20 / (243.5 + 20) = 114/85`; `exp (114/85)` is bracketed through
`exp 1 * exp (29/85)`, the Taylor partial sum of order 8 with Mathlib's
remainder bound for `exp (29/85)`, and the d9 bounds for `exp 1`. -/

theorem exp_29_85_lo : (1.40660142 : ℝ) ≤ Real.exp (29/85) := by
  have habs : |(29/85 : ℝ)| = 29/85 := abs_of_nonneg (by norm_num)
  have hb := Real.exp_bound (x := (29/85 : ℝ)) (by rw [habs]; norm_num)
    (n := 8) (by norm_num)
  rw [habs] at hb
  have h2 := (abs_le.mp hb).1
  have hS : (1.40660142 : ℝ) + (29/85 : ℝ)^8 * (↑(8+1) / (↑(Nat.factorial 8) * 8)) ≤
      ∑ m ∈ Finset.range 8, (29/85 : ℝ)^m / m.factorial := by
    simp [Finset.sum_range_succ, Nat.factorial]
    norm_num
  linarith [h2, hS]

theorem exp_29_85_hi : Real.exp (29/85) ≤ (1.40660145 : ℝ) := by
  have habs : |(29/85 : ℝ)| = 29/85 := abs_of_nonneg (by norm_num)
  have hb := Real.exp_bound (x := (29/85 : ℝ)) (by rw [habs]; norm_num)
    (n := 8) (by norm_num)
  rw [habs] at hb
  have h1 := (abs_le.mp hb).2
  have hS : (∑ m ∈ Finset.range 8, (29/85 : ℝ)^m / m.factorial) +
      (29/85 : ℝ)^8 * (↑(8+1) / (↑(Nat.factorial 8) * 8)) ≤ (1.40660145 : ℝ) := by
    simp [Finset.sum_range_succ, Nat.factorial]
    norm_num
  linarith [h1, hS]

theorem exp_114_85_lo : (3.8235390 : ℝ) ≤ Real.exp (114/85) := by
  have hEeq : Real.exp (114/85 : ℝ) = Real.exp 1 * Real.exp (29/85) := by
    rw [← Real.exp_add]
    norm_num
  rw [hEeq]
  nlinarith [Real.exp_one_gt_d9, exp_29_85_lo, Real.exp_pos (1 : ℝ),
    Real.exp_pos (29/85 : ℝ)]

theorem exp_114_85_hi : Real.exp (114/85) ≤ (3.8235392 : ℝ) := by
  have hEeq : Real.exp (114/85 : ℝ) = Real.exp 1 * Real.exp (29/85) := by
    rw [← Real.exp_add]
    norm_num
  rw [hEeq]
  nlinarith [Real.exp_one_lt_d9, exp_29_85_hi, Real.exp_pos (1 : ℝ),
    Real.exp_pos (29/85 : ℝ)]

/-- The PET value at the reference input tas = 20 degC, psl = 1013.25 hPa,
rsds = 200 W m⁻², rsdt = 400 W m⁻² lies in (3.5275e-5, 3.5276e-5): it matches
the hand-computed reference 3.5276e-5 kg m⁻² s⁻¹ to four significant digits. -/
theorem debruin_pet_ref_bounds :
    (3.5275e-5 : ℝ) < debruin_pet 1013.25 200 400 20 ∧
    debruin_pet 1013.25 200 400 20 < (3.5276e-5 : ℝ) := by
  have harg : (17.67 * 20 / (243.5 + 20) : ℝ) = 114/85 := by norm_num
  simp only [debruin_pet, tetens_derivative, gammaOf, harg]
  generalize hEg : Real.exp (114/85 : ℝ) = E
  have h1 : (3.8235390 : ℝ) ≤ E := hEg ▸ exp_114_85_lo
  have h2 : E ≤ (3.8235392 : ℝ) := hEg ▸ exp_114_85_hi
  have hdK : 17.67 * 243.5 * (6.112 * E / (243.5 + 20) ^ 2) =
      (10603938/27996875 : ℝ) * E := by
    norm_num
    ring
  have hgK : (461.51 / 287.0 * 1004 * 1013.25 / 2.5e6 : ℝ) =
      6707078679/10250000000 := by
    norm_num
  rw [hdK, hgK]
  have hden : (0:ℝ) < (10603938/27996875 : ℝ) * E + 6707078679/10250000000 := by
    nlinarith [h1]
  have hq := div_mul_cancel₀ ((10603938/27996875 : ℝ) * E) (ne_of_gt hden)
  constructor
  · rw [lt_div_iff₀ (by norm_num : (0:ℝ) < 2.5e6)]
    nlinarith [hq, h1, hden]
  · rw [div_lt_iff₀ (by norm_num : (0:ℝ) < 2.5e6)]
    nlinarith [hq, h2, hden]

/-- C7: the PET implementation computes exactly the spec's formula (Tetens
delta with a=17.67, b=243.5, e0=6.112; gamma = (461.51/287.0)·1004·psl/2.5e6;
rad_term = 0.77·rsds − 110·rsds/rsdt; result ((delta/(delta+gamma))·rad_term
+ 20)/2.5e6) at every real input, and at tas=20 degC, psl=1013.25 hPa,
rsds=200, rsdt=400 the value is positive and equals the hand-computed
reference 3.5276e-5 kg m⁻² s⁻¹ to four significant digits. -/
theorem debruin_pet_formula_and_reference :
    (∀ psl rsds rsdt tas : ℝ,
      debruin_pet psl rsds rsdt tas = PET_spec psl rsds rsdt tas) ∧
    0 < debruin_pet 1013.25 200 400 20 ∧
    (3.5275e-5 : ℝ) < debruin_pet 1013.25 200 400 20 ∧
    debruin_pet 1013.25 200 400 20 < (3.5276e-5 : ℝ) :=
  ⟨fun psl rsds rsdt tas => by
      simp only [debruin_pet, PET_spec, tetens_derivative, gammaOf]
      ring_nf,
    lt_trans (by norm_num) debruin_pet_ref_bounds.1,
    debruin_pet_ref_bounds.1, debruin_pet_ref_bounds.2⟩

end ESMVal
